import Mathlib

/-!
Shallow embedding of `dftimewolf/lib/processors/turbinia_artifact.py`
(class `TurbiniaArtifactProcessor`), together with proofs of the
behavioural properties stated in the design specification.

The module's observable behaviour (log lines, published messages,
containers stored into shared state, module errors) is modelled as a list
of `Event`s produced by pure functions translated statement-by-statement
from the Python source.  External collaborators (the Turbinia backend, the
`tempfile` module) are modelled as inputs to these functions.
-/

namespace Turbinia

/-- The container type `containers.RemoteFSPath`, with the two attributes
read and written by `TurbiniaArtifactProcessor.Process`: `path` and
`hostname`. -/
structure RemoteFSPath where
  path : String
  hostname : String
  deriving DecidableEq, Repr

/-- One Turbinia task-result dictionary, restricted to the fields the
processor reads: `task["name"]` and `task.get('saved_paths')`.  An absent
(or `None`) `saved_paths` field is modelled as `none`. -/
structure TaskResult where
  name : String
  saved_paths : Option (List String)
  deriving DecidableEq, Repr

/-- The evidence object `evidence.CompressedDirectory(...)` built by
`Process`, restricted to the two keyword arguments the source passes. -/
structure CompressedDirectory where
  compressed_directory : String
  source_path : String
  deriving DecidableEq, Repr

/-- An observable action of the processor: a logger line, a published
message, a container stored into shared state, or a module error. -/
inductive Event where
  | logInfo (msg : String) : Event
  | publishMessage (msg : String) : Event
  | storeContainer (c : RemoteFSPath) : Event
  | moduleError (msg : String) (critical : Bool) : Event
  deriving DecidableEq, Repr

/-- Python `s.startswith(pre)` on ordinary strings, via the character
list. -/
def strStartsWith (s pre : String) : Bool :=
  pre.data.isPrefixOf s.data

/-- Python `s.endswith(suf)` on ordinary strings, via the character
list. -/
def strEndsWith (s suf : String) : Bool :=
  suf.data.isSuffixOf s.data

/-- Python `s.replace('/', '_')`: the pattern is a single character, so
the call replaces every slash character by an underscore. -/
def strReplaceSlash (s : String) : String :=
  String.mk (s.data.map (fun ch => if ch = '/' then '_' else ch))

/-- Python `task.get('saved_paths') or []`: an absent field, a `None`
value and an empty list all collapse to the empty sequence. -/
def savedPathsOrEmpty (t : TaskResult) : List String :=
  t.saved_paths.getD []

/-- The path filter inside the loop of `Process` (source lines 96-101): a
saved path is skipped when it starts with `turbinia_config.TMP_DIR`, and
otherwise kept exactly when it ends with '.plaso'. -/
def acceptPath (tmpDir path : String) : Bool :=
  if strStartsWith path tmpDir then false
  else strEndsWith path ".plaso"

/-- Events of one iteration of the inner loop of `Process` for a single
saved path `path` of the task named `taskName`: nothing when the path is
filtered out, otherwise the progress message followed by the container
store. -/
def pathEvents (tmpDir taskName hostname path : String) : List Event :=
  if strStartsWith path tmpDir then []
  else if strEndsWith path ".plaso" then
    [Event.publishMessage ("  " ++ taskName ++ ": " ++ path),
     Event.storeContainer ⟨path, hostname⟩]
  else []

/-- Events of the inner loop of `Process` over all saved paths of one
task. -/
def taskEvents (tmpDir hostname : String) (t : TaskResult) : List Event :=
  (savedPathsOrEmpty t).flatMap (pathEvents tmpDir t.name hostname)

/-- Events of the outer loop of `Process` over the whole task-result
sequence returned by the backend, in the order received. -/
def aggregateEvents (tmpDir hostname : String) (tasks : List TaskResult) :
    List Event :=
  tasks.flatMap (taskEvents tmpDir hostname)

/-- Projection of an event onto the container it stores, if any. -/
def storedOf : Event → Option RemoteFSPath
  | Event.storeContainer c => some c
  | _ => none

/-- The output artifacts published by the aggregation loop of `Process`,
in emission order. -/
def outputArtifacts (tmpDir hostname : String) (tasks : List TaskResult) :
    List RemoteFSPath :=
  (aggregateEvents tmpDir hostname tasks).filterMap storedOf

/-- The number of saved-path entries of `tasks` that pass the filter. -/
def acceptedCount (tmpDir : String) (tasks : List TaskResult) : Nat :=
  (tasks.map (fun t => (savedPathsOrEmpty t).countP (acceptPath tmpDir))).sum

/-- The total number of saved-path entries of `tasks`. -/
def totalCount (tasks : List TaskResult) : Nat :=
  (tasks.map (fun t => (savedPathsOrEmpty t).length)).sum

/-- Python `os.path.join(a, b)` in the POSIX flavour used by the source:
an absolute `b` replaces `a`, otherwise `b` is appended with a separator
when one is needed. -/
def osPathJoin (a b : String) : String :=
  if strStartsWith b "/" then b
  else if a = "" then b
  else if strEndsWith a "/" then a ++ b
  else a ++ "/" ++ b

/-- The evidence descriptor built by `Process` (source lines 86-87): both
keyword arguments receive `container.path` unmodified. -/
def buildEvidence (container : RemoteFSPath) : CompressedDirectory :=
  ⟨container.path, container.path⟩

/-- The body of `TurbiniaArtifactProcessor.Process` as an event trace.
`outputPath` stands for `self._output_path`; `submission` is the outcome
of the external call `self.TurbiniaProcess(evidence_)`: `Except.error msg`
when it raises `TurbiniaException` with text `msg`, `Except.ok task_data`
otherwise.  `ModuleError(msg, critical=True)` is modelled from the spec:
`module.ThreadAwareModule.ModuleError` is not part of this source file,
and the spec states that a critical module error aborts the run for this
artifact, so the trace ends at the error event and no further statement
of `Process` runs. -/
def Process (tmpDir outputPath : String) (container : RemoteFSPath)
    (submission : Except String (List TaskResult)) : List Event :=
  let logFilePath := osPathJoin outputPath
    (container.hostname ++ "_" ++ strReplaceSlash container.path
      ++ "-turbinia.log")
  [Event.logInfo ("Turbinia log file: " ++ logFilePath),
   Event.logInfo ("Processing remote FS path " ++ container.path
     ++ " from previous collector")]
  ++ match submission with
     | Except.error msg => [Event.moduleError msg true]
     | Except.ok task_data =>
         Event.logInfo "Files generated by Turbinia:"
           :: aggregateEvents tmpDir container.hostname task_data

/-- The output-directory handling at the start of `SetUp` (source lines
64-68).  `mkdtempResult` stands for the fresh directory name that
`tempfile.mkdtemp(prefix='turbinia-results')` returns when it is called;
the function yields the final value of `self.output_directory` together
with the messages published. -/
def setUpOutputDirectory (mkdtempResult output_directory : String) :
    String × List Event :=
  if output_directory = "" then
    (mkdtempResult,
     [Event.publishMessage
       ("Turbinia results will be dumped to " ++ mkdtempResult)])
  else (output_directory, [])

/-- The shared-state container list after `state.StoreContainer` has run
for each `storeContainer` event of `events`, starting from `stored`. -/
def runStore (stored : List RemoteFSPath) (events : List Event) :
    List RemoteFSPath :=
  stored ++ events.filterMap storedOf

/-- Property of an event trace: every stored container is immediately
preceded by its own progress notification. -/
def NotifiedBefore (l : List Event) : Prop :=
  ∀ i c, l[i]? = some (Event.storeContainer c) →
    0 < i ∧ ∃ t, l[i-1]? =
      some (Event.publishMessage ("  " ++ t ++ ": " ++ c.path))

theorem filterMap_flatMap_eq {α β γ : Type} (l : List α) (f : α → List β)
    (g : β → Option γ) :
    (l.flatMap f).filterMap g = l.flatMap (fun x => (f x).filterMap g) := by
  induction l with
  | nil => rfl
  | cons a l ih => simp [List.flatMap_cons, List.filterMap_append, ih]

theorem pathEvents_filterMap (tmpDir n host p : String) :
    (pathEvents tmpDir n host p).filterMap storedOf =
      (if acceptPath tmpDir p then [(⟨p, host⟩ : RemoteFSPath)] else []) := by
  simp only [pathEvents, acceptPath]
  by_cases h1 : strStartsWith p tmpDir = true
  · simp [h1, storedOf]
  · by_cases h2 : strEndsWith p ".plaso" = true <;>
      simp [h1, h2, storedOf]

theorem outputArtifacts_eq (tmpDir host : String) (tasks : List TaskResult) :
    outputArtifacts tmpDir host tasks =
      tasks.flatMap (fun t => (savedPathsOrEmpty t).flatMap
        (fun p => if acceptPath tmpDir p
          then [(⟨p, host⟩ : RemoteFSPath)] else [])) := by
  unfold outputArtifacts aggregateEvents taskEvents
  rw [filterMap_flatMap_eq]
  congr 1
  funext t
  rw [filterMap_flatMap_eq]
  congr 1
  funext p
  exact pathEvents_filterMap tmpDir t.name host p

theorem length_flatMap_ite {α β : Type} (l : List α) (q : α → Bool) (c : α → β) :
    (l.flatMap (fun x => if q x then [c x] else [])).length = l.countP q := by
  induction l with
  | nil => rfl
  | cons a l ih =>
      by_cases h : q a = true <;>
        simp [List.flatMap_cons, h, ih, List.countP_cons]

theorem mem_artifacts_of_accepted (tmpDir host p : String) (ps : List String)
    (hacc : acceptPath tmpDir p = true) (hp : p ∈ ps) :
    (⟨p, host⟩ : RemoteFSPath) ∈ ps.flatMap
      (fun q => if acceptPath tmpDir q
        then [(⟨q, host⟩ : RemoteFSPath)] else []) := by
  refine List.mem_flatMap.mpr ⟨p, hp, ?_⟩
  simp [hacc]

/-- C2: every path that starts with the backend temp-directory prefix is
rejected by the filter, and the corresponding loop iteration emits no
event at all, regardless of the path's suffix. -/
theorem tmp_path_rejected (tmpDir taskName host p : String)
    (h : strStartsWith p tmpDir = true) :
    acceptPath tmpDir p = false ∧ pathEvents tmpDir taskName host p = [] := by
  unfold acceptPath pathEvents
  simp [h]

theorem tmp_path_rejected_witness :
    acceptPath "/tmp/scratch" "/tmp/scratch/out.plaso" = false ∧
    pathEvents "/tmp/scratch" "t1" "h1" "/tmp/scratch/out.plaso" = [] :=
  tmp_path_rejected "/tmp/scratch" "t1" "h1" "/tmp/scratch/out.plaso"
    (by decide)

/-- C3: for a path that does not start with the temp-directory prefix,
the filter accepts exactly when the path ends with '.plaso'; the filter
is a total function on strings and rejects the empty string for every
temp-directory prefix. -/
theorem accept_iff_plaso_suffix (tmpDir p : String) :
    (strStartsWith p tmpDir = false →
      (acceptPath tmpDir p = true ↔ strEndsWith p ".plaso" = true)) ∧
    acceptPath tmpDir "" = false := by
  constructor
  · intro h
    unfold acceptPath
    simp [h]
  · unfold acceptPath
    by_cases h : strStartsWith "" tmpDir = true
    · simp [h]
    · simp [h]
      decide

theorem accept_iff_plaso_suffix_witness :
    (acceptPath "/tmp/scratch" "/eat/data/out.plaso" = true ↔
      strEndsWith "/eat/data/out.plaso" ".plaso" = true) ∧
    acceptPath "/tmp/scratch" "" = false :=
  ⟨(accept_iff_plaso_suffix "/tmp/scratch" "/eat/data/out.plaso").1
      (by decide),
   (accept_iff_plaso_suffix "/tmp/scratch" "").2⟩

/-- C4: a task result whose saved_paths field is absent contributes no
event (in particular no output artifact and no error) to the aggregation
loop. -/
theorem absent_saved_paths_harmless (tmpDir host : String) (t : TaskResult)
    (h : t.saved_paths = none) :
    taskEvents tmpDir host t = [] ∧ outputArtifacts tmpDir host [t] = [] := by
  have he : savedPathsOrEmpty t = [] := by simp [savedPathsOrEmpty, h]
  refine ⟨?_, ?_⟩
  · simp [taskEvents, he]
  · simp [outputArtifacts, aggregateEvents, taskEvents, he]

theorem absent_saved_paths_harmless_witness :
    taskEvents "/tmp/scratch" "h1" ⟨"t1", none⟩ = [] ∧
    outputArtifacts "/tmp/scratch" "h1" [⟨"t1", none⟩] = [] :=
  absent_saved_paths_harmless "/tmp/scratch" "h1" ⟨"t1", none⟩ rfl

/-- C8: aggregation is deterministic and idempotent with respect to its
inputs: a run publishes exactly the artifact list `outputArtifacts` after
the pre-existing shared state, and the artifact sequences appended by two
runs on the same task list and hostname (from any two shared states, for
example the state before and after the first run) are structurally
equal. -/
theorem aggregate_deterministic (tmpDir host : String)
    (tasks : List TaskResult) (s₁ s₂ : List RemoteFSPath) :
    runStore s₁ (aggregateEvents tmpDir host tasks) =
      s₁ ++ outputArtifacts tmpDir host tasks ∧
    (runStore s₁ (aggregateEvents tmpDir host tasks)).drop s₁.length =
      (runStore s₂ (aggregateEvents tmpDir host tasks)).drop s₂.length := by
  refine ⟨rfl, ?_⟩
  unfold runStore
  rw [List.drop_left, List.drop_left]

/-- C9: the evidence descriptor built by `Process` carries the input
artifact's path, unmodified, in both its `compressed_directory` and its
`source_path` field. -/
theorem evidence_fields_are_input_path (c : RemoteFSPath) :
    (buildEvidence c).compressed_directory = c.path ∧
    (buildEvidence c).source_path = c.path :=
  ⟨rfl, rfl⟩

/-- C1: aggregation publishes exactly one output artifact per saved-path
entry that passes the filter (K of the N entries, with K at most N), and
every published artifact carries the hostname of the input artifact that
produced it. -/
theorem aggregation_counts_and_hostname (tmpDir host : String)
    (tasks : List TaskResult) :
    (outputArtifacts tmpDir host tasks).length = acceptedCount tmpDir tasks ∧
    acceptedCount tmpDir tasks ≤ totalCount tasks ∧
    ∀ c ∈ outputArtifacts tmpDir host tasks, c.hostname = host := by
  refine ⟨?_, ?_, ?_⟩
  · unfold acceptedCount
    induction tasks with
    | nil => rfl
    | cons t ts ih =>
        rw [outputArtifacts_eq] at ih ⊢
        simp only [List.flatMap_cons, List.length_append, List.map_cons,
          List.sum_cons, ih]
        congr 1
        exact length_flatMap_ite (savedPathsOrEmpty t) (acceptPath tmpDir) _
  · unfold acceptedCount totalCount
    induction tasks with
    | nil => simp
    | cons t ts ih =>
        simp only [List.map_cons, List.sum_cons]
        exact Nat.add_le_add (List.countP_le_length _) ih
  · intro c hc
    rw [outputArtifacts_eq] at hc
    obtain ⟨t, _, hc⟩ := List.mem_flatMap.mp hc
    obtain ⟨p, _, hc⟩ := List.mem_flatMap.mp hc
    by_cases h : acceptPath tmpDir p = true
    · simp [h] at hc
      rw [hc]
    · simp [h] at hc

theorem aggregation_counts_and_hostname_witness :
    (outputArtifacts "/tmp/scratch" "h1"
        [⟨"t1", some ["/tmp/scratch/a.tmp", "/eat/data/out.plaso"]⟩]).length =
      acceptedCount "/tmp/scratch"
        [⟨"t1", some ["/tmp/scratch/a.tmp", "/eat/data/out.plaso"]⟩] ∧
    (RemoteFSPath.mk "/eat/data/out.plaso" "h1").hostname = "h1" :=
  ⟨(aggregation_counts_and_hostname "/tmp/scratch" "h1"
      [⟨"t1", some ["/tmp/scratch/a.tmp", "/eat/data/out.plaso"]⟩]).1,
   (aggregation_counts_and_hostname "/tmp/scratch" "h1"
      [⟨"t1", some ["/tmp/scratch/a.tmp", "/eat/data/out.plaso"]⟩]).2.2
     ⟨"/eat/data/out.plaso", "h1"⟩ (by decide)⟩

/-- C5: the aggregation loop processes task results in the order received
(it distributes over concatenation of the input sequence, so no
reordering happens), and it performs no deduplication across task
entries: two distinct task results that both report the same accepted
path yield at least two output artifacts with that path. -/
theorem aggregation_order_no_dedup (tmpDir host : String)
    (ts₁ ts₂ : List TaskResult) (t₁ t₂ : TaskResult) (p : String) :
    aggregateEvents tmpDir host (ts₁ ++ ts₂) =
      aggregateEvents tmpDir host ts₁ ++ aggregateEvents tmpDir host ts₂ ∧
    (t₁ ≠ t₂ → acceptPath tmpDir p = true → p ∈ savedPathsOrEmpty t₁ →
      p ∈ savedPathsOrEmpty t₂ →
      2 ≤ (outputArtifacts tmpDir host [t₁, t₂]).count
            (⟨p, host⟩ : RemoteFSPath)) := by
  constructor
  · unfold aggregateEvents
    exact List.flatMap_append ts₁ ts₂ _
  · intro _ hacc h₁ h₂
    rw [outputArtifacts_eq]
    have hmem₁ := mem_artifacts_of_accepted tmpDir host p
      (savedPathsOrEmpty t₁) hacc h₁
    have hmem₂ := mem_artifacts_of_accepted tmpDir host p
      (savedPathsOrEmpty t₂) hacc h₂
    have hc₁ := List.count_pos_iff.mpr hmem₁
    have hc₂ := List.count_pos_iff.mpr hmem₂
    simp only [List.flatMap_cons, List.flatMap_nil, List.append_nil,
      List.count_append]
    omega

theorem aggregation_order_no_dedup_witness :
    aggregateEvents "/tmp/scratch" "h1"
        ([⟨"t1", some ["/a.plaso"]⟩] ++ [⟨"t2", some ["/a.plaso"]⟩]) =
      aggregateEvents "/tmp/scratch" "h1" [⟨"t1", some ["/a.plaso"]⟩] ++
        aggregateEvents "/tmp/scratch" "h1" [⟨"t2", some ["/a.plaso"]⟩] ∧
    2 ≤ (outputArtifacts "/tmp/scratch" "h1"
          [⟨"t1", some ["/a.plaso"]⟩, ⟨"t2", some ["/a.plaso"]⟩]).count
            (⟨"/a.plaso", "h1"⟩ : RemoteFSPath) :=
  ⟨(aggregation_order_no_dedup "/tmp/scratch" "h1"
      [⟨"t1", some ["/a.plaso"]⟩] [⟨"t2", some ["/a.plaso"]⟩]
      ⟨"t1", some ["/a.plaso"]⟩ ⟨"t2", some ["/a.plaso"]⟩ "/a.plaso").1,
   (aggregation_order_no_dedup "/tmp/scratch" "h1"
      [⟨"t1", some ["/a.plaso"]⟩] [⟨"t2", some ["/a.plaso"]⟩]
      ⟨"t1", some ["/a.plaso"]⟩ ⟨"t2", some ["/a.plaso"]⟩ "/a.plaso").2
     (by decide) (by decide) (by decide) (by decide)⟩

/-- C6: when `SetUp` receives an empty output directory it adopts the
fresh directory name returned by `tempfile.mkdtemp` (non-empty and not
previously used, by the `mkdtemp` contract) and publishes, during set-up
and hence before any `Process` call, a notification whose text contains
that directory; when a non-empty output directory is supplied it is kept
unchanged and no notification is published. -/
theorem setup_output_directory_spec (used : List String)
    (mkdtempResult output_directory : String) :
    (mkdtempResult ≠ "" → mkdtempResult ∉ used →
      (setUpOutputDirectory mkdtempResult "").1 ≠ "" ∧
      (setUpOutputDirectory mkdtempResult "").1 ∉ used ∧
      (setUpOutputDirectory mkdtempResult "").2 =
        [Event.publishMessage ("Turbinia results will be dumped to "
          ++ (setUpOutputDirectory mkdtempResult "").1)]) ∧
    (output_directory ≠ "" →
      setUpOutputDirectory mkdtempResult output_directory =
        (output_directory, [])) := by
  constructor
  · intro h1 h2
    exact ⟨h1, h2, rfl⟩
  · intro h
    simp [setUpOutputDirectory, h]

theorem setup_output_directory_spec_witness :
    ((setUpOutputDirectory "/tmp/turbinia-resultsabc123" "").1 ≠ "" ∧
      (setUpOutputDirectory "/tmp/turbinia-resultsabc123" "").1 ∉
        ["/evidence"] ∧
      (setUpOutputDirectory "/tmp/turbinia-resultsabc123" "").2 =
        [Event.publishMessage ("Turbinia results will be dumped to "
          ++ (setUpOutputDirectory "/tmp/turbinia-resultsabc123" "").1)]) ∧
    setUpOutputDirectory "/tmp/turbinia-resultsabc123" "/out" =
      ("/out", []) :=
  ⟨(setup_output_directory_spec ["/evidence"]
      "/tmp/turbinia-resultsabc123" "/out").1 (by decide) (by decide),
   (setup_output_directory_spec ["/evidence"]
      "/tmp/turbinia-resultsabc123" "/out").2 (by decide)⟩

/-- C7: when the backend submission raises a `TurbiniaException`, the
`Process` trace reports one critical module error whose message is the
backend's error text verbatim, every module error in the trace is that
one, and the trace stores no container. -/
theorem backend_error_reported_critical (tmpDir outputPath : String)
    (container : RemoteFSPath) (e : String) :
    Event.moduleError e true ∈
        Process tmpDir outputPath container (Except.error e) ∧
    (Process tmpDir outputPath container (Except.error e)).filterMap
        storedOf = [] ∧
    ∀ m b, Event.moduleError m b ∈
        Process tmpDir outputPath container (Except.error e) →
      m = e ∧ b = true := by
  refine ⟨?_, ?_, ?_⟩
  · simp [Process]
  · simp [Process, storedOf]
  · intro m b hm
    simp [Process] at hm
    exact hm

theorem backend_error_reported_critical_witness :
    Event.moduleError "no worker available" true ∈
        Process "/tmp/scratch" "/out" ⟨"/eat/data", "h1"⟩
          (Except.error "no worker available") ∧
    (Process "/tmp/scratch" "/out" ⟨"/eat/data", "h1"⟩
        (Except.error "no worker available")).filterMap storedOf = [] ∧
    ("no worker available" = "no worker available" ∧ true = true) :=
  ⟨(backend_error_reported_critical "/tmp/scratch" "/out"
      ⟨"/eat/data", "h1"⟩ "no worker available").1,
   (backend_error_reported_critical "/tmp/scratch" "/out"
      ⟨"/eat/data", "h1"⟩ "no worker available").2.1,
   (backend_error_reported_critical "/tmp/scratch" "/out"
      ⟨"/eat/data", "h1"⟩ "no worker available").2.2
     "no worker available" true (by decide)⟩

theorem notifiedBefore_append {l₁ l₂ : List Event}
    (h₁ : NotifiedBefore l₁) (h₂ : NotifiedBefore l₂) :
    NotifiedBefore (l₁ ++ l₂) := by
  intro i c hc
  by_cases hlt : i < l₁.length
  · rw [List.getElem?_append_left hlt] at hc
    obtain ⟨hpos, t, ht⟩ := h₁ i c hc
    refine ⟨hpos, t, ?_⟩
    rw [List.getElem?_append_left (by omega)]
    exact ht
  · push_neg at hlt
    rw [List.getElem?_append_right hlt] at hc
    obtain ⟨hpos, t, ht⟩ := h₂ (i - l₁.length) c hc
    have hgt : l₁.length < i := by omega
    refine ⟨by omega, t, ?_⟩
    rw [List.getElem?_append_right (by omega : l₁.length ≤ i - 1)]
    have harith : i - 1 - l₁.length = i - l₁.length - 1 := by omega
    rw [harith]
    exact ht

theorem notifiedBefore_of_no_store {l : List Event}
    (h : ∀ c, Event.storeContainer c ∉ l) : NotifiedBefore l := by
  intro i c hc
  exact absurd (List.getElem?_mem hc) (h c)

theorem notifiedBefore_pathEvents (tmpDir n host p : String) :
    NotifiedBefore (pathEvents tmpDir n host p) := by
  intro i c hc
  unfold pathEvents at hc ⊢
  by_cases h1 : strStartsWith p tmpDir = true
  · simp [h1] at hc
  · by_cases h2 : strEndsWith p ".plaso" = true
    · simp only [h1, h2, Bool.false_eq_true, if_false, if_true] at hc ⊢
      match i with
      | 0 => simp at hc
      | 1 =>
          simp at hc
          subst hc
          exact ⟨by omega, n, rfl⟩
      | j + 2 => simp at hc
    · simp [h1, h2] at hc

theorem notifiedBefore_flatMap {α : Type} (l : List α) (f : α → List Event)
    (h : ∀ x ∈ l, NotifiedBefore (f x)) : NotifiedBefore (l.flatMap f) := by
  induction l with
  | nil => intro i c hc; simp at hc
  | cons a l ih =>
      rw [List.flatMap_cons]
      exact notifiedBefore_append (h a (by simp))
        (ih (fun x hx => h x (by simp [hx])))

theorem notifiedBefore_aggregate (tmpDir host : String)
    (tasks : List TaskResult) :
    NotifiedBefore (aggregateEvents tmpDir host tasks) := by
  unfold aggregateEvents taskEvents
  exact notifiedBefore_flatMap tasks _ (fun t _ =>
    notifiedBefore_flatMap (savedPathsOrEmpty t) _ (fun p _ =>
      notifiedBefore_pathEvents tmpDir t.name host p))

theorem notifiedBefore_process (tmpDir outputPath : String)
    (container : RemoteFSPath)
    (submission : Except String (List TaskResult)) :
    NotifiedBefore (Process tmpDir outputPath container submission) := by
  unfold Process
  cases submission with
  | error msg =>
      apply notifiedBefore_of_no_store
      intro c
      simp
  | ok task_data =>
      apply notifiedBefore_append
      · apply notifiedBefore_of_no_store
        intro c
        simp
      · show NotifiedBefore (Event.logInfo "Files generated by Turbinia:"
          :: aggregateEvents tmpDir container.hostname task_data)
        rw [← List.singleton_append]
        apply notifiedBefore_append
        · apply notifiedBefore_of_no_store
          intro c
          simp
        · exact notifiedBefore_aggregate tmpDir container.hostname task_data

/-- C10: in the `Process` trace, a container-store event at position `i`
is always strictly preceded (at position `i - 1`) by the human-readable
progress notification for that container's path; no container is ever
stored without its notification having been emitted first. -/
theorem store_preceded_by_notification (tmpDir outputPath : String)
    (container : RemoteFSPath)
    (submission : Except String (List TaskResult)) (i : Nat)
    (c : RemoteFSPath)
    (h : (Process tmpDir outputPath container submission)[i]? =
      some (Event.storeContainer c)) :
    0 < i ∧ ∃ t, (Process tmpDir outputPath container submission)[i-1]? =
      some (Event.publishMessage ("  " ++ t ++ ": " ++ c.path)) :=
  notifiedBefore_process tmpDir outputPath container submission i c h

theorem store_preceded_by_notification_witness :
    0 < 4 ∧ ∃ t, (Process "/tmp/scratch" "/out" ⟨"/eat/data", "h1"⟩
        (Except.ok [⟨"t1", some ["/eat/data/out.plaso"]⟩]))[4-1]? =
      some (Event.publishMessage ("  " ++ t ++ ": "
        ++ (RemoteFSPath.mk "/eat/data/out.plaso" "h1").path)) :=
  store_preceded_by_notification "/tmp/scratch" "/out" ⟨"/eat/data", "h1"⟩
    (Except.ok [⟨"t1", some ["/eat/data/out.plaso"]⟩]) 4
    ⟨"/eat/data/out.plaso", "h1"⟩ (by decide)

end Turbinia
